import Mathlib

/-!
Shallow embedding of `matlab_wrapper/matlab_session.py` (the marshalling layer
between host numpy arrays and MATLAB engine `mxArray` handles, plus the session
protocol around `engOpen` / `engEvalString` / `engGetVariable` /
`engPutVariable`).

Modelling conventions:
* numpy arrays are modelled at element granularity: an array is a shape
  together with indexing functions for the real and imaginary parts
  (integers stand for the bit-exact element values; the marshalling code
  only copies bytes, it never does arithmetic on single elements except the
  `real + imag * 1j` recombination, which is modelled by exact Gaussian
  arithmetic on (re, im) pairs);
* `mxArray` handles are modelled by their observable contents through the
  `libmx` accessors used in the source (dimensions, class, complex flag,
  real/imag buffers, char data);
* the engine workspace transports handles unchanged (its contract, out of
  scope per the spec), so `put` followed by `get` feeds the encoded handle
  to the decoder;
* side effects that the claims talk about (calls to `engPutVariable`,
  `mxDestroyArray`, `engOutputBuffer`) are recorded in explicit traces.
-/

namespace MatlabWrapper

/-- numpy `dtype.kind` characters used by `put`:
`i` signed int, `u` unsigned int, `f` float, `c` complex, `b` bool,
`O` object, `S` bytes/string. -/
inductive NpKind
  | i | u | f | c | b | O | S
deriving DecidableEq

/-- The numpy dtypes relevant to the marshalling layer. -/
inductive NpDtype
  | int8 | int16 | int32 | int64
  | uint8 | uint16 | uint32 | uint64
  | float32 | float64
  | complex64 | complex128
  | bool_
  | object_
  | bytes_
deriving DecidableEq

/-- `dtype.kind` of each dtype, as numpy reports it. -/
def NpDtype.kind : NpDtype → NpKind
  | .int8 | .int16 | .int32 | .int64 => .i
  | .uint8 | .uint16 | .uint32 | .uint64 => .u
  | .float32 | .float64 => .f
  | .complex64 | .complex128 => .c
  | .bool_ => .b
  | .object_ => .O
  | .bytes_ => .S

/-- MATLAB `mxClassID` values (the classes reachable in this code base). -/
inductive MxClassID
  | mxINT8 | mxINT16 | mxINT32 | mxINT64
  | mxUINT8 | mxUINT16 | mxUINT32 | mxUINT64
  | mxSINGLE | mxDOUBLE
  | mxLOGICAL | mxCHAR | mxCELL
deriving DecidableEq

/-- Modelled from the spec: `matlab_wrapper.typeconv.np_to_mat` is imported by
`matlab_session.py` but its source file is not part of this repository
snapshot.  Per spec section 3 (TypeMap) it is a total mapping of the fixed
numeric dtypes {int8..64, uint8..64, float32, float64} to engine class codes,
used by encode with a separate complex flag (spec section 4.3), so the complex
dtypes map to the class of their component precision and bool maps to the
logical class; everything outside the mapping is a rejection. -/
def np_to_mat : NpDtype → Option MxClassID
  | .int8 => some .mxINT8
  | .int16 => some .mxINT16
  | .int32 => some .mxINT32
  | .int64 => some .mxINT64
  | .uint8 => some .mxUINT8
  | .uint16 => some .mxUINT16
  | .uint32 => some .mxUINT32
  | .uint64 => some .mxUINT64
  | .float32 => some .mxSINGLE
  | .float64 => some .mxDOUBLE
  | .complex64 => some .mxSINGLE
  | .complex128 => some .mxDOUBLE
  | .bool_ => some .mxLOGICAL
  | .object_ => none
  | .bytes_ => none

/-- The string `mxGetClassName` returns for each class. -/
def classNameOf : MxClassID → String
  | .mxINT8 => "int8"
  | .mxINT16 => "int16"
  | .mxINT32 => "int32"
  | .mxINT64 => "int64"
  | .mxUINT8 => "uint8"
  | .mxUINT16 => "uint16"
  | .mxUINT32 => "uint32"
  | .mxUINT64 => "uint64"
  | .mxSINGLE => "single"
  | .mxDOUBLE => "double"
  | .mxLOGICAL => "logical"
  | .mxCHAR => "char"
  | .mxCELL => "cell"

/-- numpy dtype-string parsing, `np.dtype(class_name)`, for the class-name
strings that can reach `np.ndarray(dtype=class_name)` in `get`:
MATLAB's numeric class names are all valid numpy dtype strings
("double" is float64, "single" is float32); the non-numeric names are not. -/
def npDtypeOfClassName : String → Option NpDtype
  | "int8" => some .int8
  | "int16" => some .int16
  | "int32" => some .int32
  | "int64" => some .int64
  | "uint8" => some .uint8
  | "uint16" => some .uint16
  | "uint32" => some .uint32
  | "uint64" => some .uint64
  | "single" => some .float32
  | "double" => some .float64
  | _ => none

/-- `mxIsNumeric`: true exactly for the numeric classes (not logical, char or
cell). -/
def isNumericClass : MxClassID → Bool
  | .mxLOGICAL | .mxCHAR | .mxCELL => false
  | _ => true

/-- numpy type promotion applied by `pyarray + pyarray_imag * 1j`: multiplying
by the Python complex scalar `1j` (complex128) promotes float32 arrays to
complex64 and every other numeric dtype to complex128. -/
def promoteComplex : NpDtype → NpDtype
  | .float32 => .complex64
  | _ => .complex128

/-- A floating-point complex dtype. -/
def isFloatComplex : NpDtype → Bool
  | .complex64 | .complex128 => true
  | _ => false

/-! ## Shapes, column-major indexing, squeeze -/

/-- Index validity: same length as the shape and pointwise within bounds. -/
def validIdx : List Nat → List Nat → Bool
  | [], [] => true
  | d :: ds, i :: is => decide (i < d) && validIdx ds is
  | _, _ => false

/-- Column-major (Fortran) flat position of a multi-index: the first index
varies fastest. -/
def colMajorPos : List Nat → List Nat → Nat
  | d :: ds, i :: is => i + d * colMajorPos ds is
  | _, _ => 0

/-- All multi-indices of a shape enumerated in column-major order (first
index fastest). -/
def colMajorEnum : List Nat → List (List Nat)
  | [] => [[]]
  | d :: ds => (colMajorEnum ds).flatMap (fun rest => (List.range d).map (fun i => i :: rest))

/-- `np.array(value, ndmin=2)` on shapes: prepend unit dimensions until the
array is at least 2-dimensional. -/
def ndmin2Shape (s : List Nat) : List Nat :=
  List.replicate (2 - s.length) 1 ++ s

/-- `squeeze` on shapes: drop every unit-length dimension. -/
def squeezeShape (s : List Nat) : List Nat :=
  s.filter (fun d => d ≠ 1)

/-- The index into the squeezed array corresponding to a full index
(entries at unit dimensions are dropped). -/
def squeezeIdx : List Nat → List Nat → List Nat
  | d :: ds, i :: is => if d = 1 then squeezeIdx ds is else i :: squeezeIdx ds is
  | _, _ => []

/-- The full index corresponding to an index into the squeezed array
(index 0 is re-inserted at every unit dimension). -/
def expandIdx : List Nat → List Nat → List Nat
  | [], _ => []
  | d :: ds, idx =>
    if d = 1 then 0 :: expandIdx ds idx
    else
      match idx with
      | i :: is => i :: expandIdx ds is
      | [] => []

/-! ## Host arrays and engine array handles -/

/-- A host (numpy) array at element granularity: a shape together with the
real and imaginary part of the element at each multi-index.  For a dtype of
non-complex kind numpy reports `x.imag` as all zeros.  Element values are
carried as integers standing for the exact bit patterns the byte copies
preserve. -/
structure NpArray where
  shape : List Nat
  dtype : NpDtype
  re : List Nat → Int
  im : List Nat → Int

/-- `np.array(value, ndmin=2)`: the same data behind a shape padded to at
least 2 dimensions by prepending unit axes. -/
def coerceNdmin2 (a : NpArray) : NpArray :=
  { shape := ndmin2Shape a.shape
    dtype := a.dtype
    re := fun idx => a.re (idx.drop (2 - a.shape.length))
    im := fun idx => a.im (idx.drop (2 - a.shape.length)) }

/-- `ndarray.tostring('F')` at element granularity: the elements listed in
column-major order. -/
def serializeF (shape : List Nat) (f : List Nat → Int) : List Int :=
  (colMajorEnum shape).map f

/-- `ndarray.squeeze()`: drop unit axes; an element of the squeezed view is
the element of the base array at the expanded index. -/
def squeezeArr (a : NpArray) : NpArray :=
  { shape := squeezeShape a.shape
    dtype := a.dtype
    re := fun idx => a.re (expandIdx a.shape idx)
    im := fun idx => a.im (expandIdx a.shape idx) }

/-- Gaussian (exact complex) addition on (re, im) pairs. -/
def cAdd (x y : Int × Int) : Int × Int := (x.1 + y.1, x.2 + y.2)

/-- Gaussian (exact complex) multiplication on (re, im) pairs. -/
def cMul (x y : Int × Int) : Int × Int :=
  (x.1 * y.1 - x.2 * y.2, x.1 * y.2 + x.2 * y.1)

/-- The imaginary unit `1j`. -/
def imagUnit : Int × Int := (0, 1)

/-- An engine `mxArray` handle, observed through the `libmx` accessors the
source uses: `mxGetDimensions`/`mxGetNumberOfDimensions` (dims),
`mxGetClassName` (classID), `mxIsComplex`, `mxGetData` (realBuf, read in
column-major storage order), `mxGetImagData` (imagBuf, null unless complex),
and `mxGetString` (charData, for char arrays). -/
structure MxArr where
  dims : List Nat
  classID : MxClassID
  isComplex : Bool
  realBuf : List Int
  imagBuf : Option (List Int)
  charData : String
deriving DecidableEq

/-- `mxGetClassName`. -/
def mxGetClassName (m : MxArr) : String := classNameOf m.classID

/-- `mxIsNumeric`. -/
def mxIsNumeric (m : MxArr) : Bool := isNumericClass m.classID

/-- `mxCreateNumericArray(ndim, dims, classid, complexity)`: a fresh handle
with the given dimensions, class and complex flag; buffers are allocated
(zero-initialised), the imaginary buffer only when the complex flag is set. -/
def mxCreateNumericArray (dims : List Nat) (cls : MxClassID) (complexFlag : Bool) : MxArr :=
  { dims := dims
    classID := cls
    isComplex := complexFlag
    realBuf := List.replicate dims.prod 0
    imagBuf := if complexFlag then some (List.replicate dims.prod 0) else none
    charData := "" }

/-- `mxCreateString(value)`: a 1-by-length char array holding the text. -/
def mxCreateString (s : String) : MxArr :=
  { dims := [1, s.length]
    classID := .mxCHAR
    isComplex := false
    realBuf := []
    imagBuf := none
    charData := s }

/-! ## put (encode) -/

/-- The host values `put` dispatches on: Python `str`, Python `dict`, and
everything else (which `np.array(value, ndmin=2)` coerces to an array;
the `.other` payload is the `np.array(value)` result before the ndmin
padding). -/
inductive HostValue
  | str (s : String)
  | dict
  | other (a : NpArray)

/-- The exceptions `put` can raise (`NotImplementedError` in the source). -/
inductive PutError
  | dictsNotSupported
  | typeNotSupported (dtype : NpDtype)
deriving DecidableEq

/-- The dtype kinds accepted by `put`:
`value.dtype.kind in ['i','u','f','c','b']`. -/
def supportedKinds : List NpKind := [.i, .u, .f, .c, .b]

/-- The handle-construction part of `put` (lines 281-330 of
`matlab_session.py`): build an `mxArray` from the host value, or raise.
For the array case: coerce with `ndmin=2`, check the dtype kind, allocate a
numeric array with the value's dimensions, class code from `np_to_mat` and
complex flag iff the kind is complex, then `memmove` the column-major
serialization of the real part into the real buffer and, when complex, of
the imaginary part into the imaginary buffer. -/
def encodeValue : HostValue → Except PutError MxArr
  | .str s => .ok (mxCreateString s)
  | .dict => .error .dictsNotSupported
  | .other a0 =>
    let value := coerceNdmin2 a0
    if value.dtype.kind ∈ supportedKinds then
      match np_to_mat value.dtype with
      | some cls =>
        let complexFlag := decide (value.dtype.kind = NpKind.c)
        let pm0 := mxCreateNumericArray value.shape cls complexFlag
        let pm1 := { pm0 with realBuf := serializeF value.shape value.re }
        let pm :=
          if complexFlag then { pm1 with imagBuf := some (serializeF value.shape value.im) }
          else pm1
        .ok pm
      | none => .error (.typeNotSupported value.dtype)
    else .error (.typeNotSupported value.dtype)

/-- The observable effects of one `put` call. -/
structure PutTrace where
  result : Except PutError Unit
  putVarCalls : List (String × MxArr)
  destroyCalls : Nat

/-- `MatlabSession.put`: encode the value, transfer the handle with
`engPutVariable`, destroy the local handle.  On the failure branches the
exception is raised before any handle is created or transferred. -/
def put (name : String) (value : HostValue) : PutTrace :=
  match encodeValue value with
  | .ok pm => { result := .ok (), putVarCalls := [(name, pm)], destroyCalls := 1 }
  | .error e => { result := .error e, putVarCalls := [], destroyCalls := 0 }

/-! ## get (decode) -/

/-- The outcomes `get` can raise: passing the null handle returned by
`engGetVariable` for a missing variable straight into the `libmx` accessors
(the source has no null check, so the process dereferences a null pointer),
a numpy `TypeError` if the class name is not a numpy dtype string
(unreachable for numeric handles), and the `NotImplementedError` of the
unsupported-class branch. -/
inductive GetError
  | nullPointerDeref
  | numpyDtypeError (className : String)
  | notImplemented (className : String)
deriving DecidableEq

/-- The host value `get` returns. -/
inductive HostOut
  | array (a : NpArray)
  | str (s : String)

/-- The observable effects of one `get` call. -/
structure GetTrace where
  result : Except GetError HostOut
  destroyCalls : Nat

/-- The numeric decode path of `get` (lines 214-238): copy the real buffer
into a fresh host array shaped by the handle's dimensions in column-major
order, typed by the class name; if complex, do the same for the imaginary
buffer and recombine as `pyarray + pyarray_imag * 1j` (promoting to a
floating complex dtype); finally squeeze. -/
def decodeNumeric (m : MxArr) (dtb : NpDtype) : NpArray :=
  let baseRe : List Nat → Int := fun idx => (m.realBuf[colMajorPos m.dims idx]?).getD 0
  if m.isComplex then
    let baseIm : List Nat → Int :=
      fun idx => ((m.imagBuf.getD [])[colMajorPos m.dims idx]?).getD 0
    let combined : List Nat → Int × Int :=
      fun idx => cAdd (baseRe idx, 0) (cMul (baseIm idx, 0) imagUnit)
    squeezeArr
      { shape := m.dims
        dtype := promoteComplex dtb
        re := fun idx => (combined idx).1
        im := fun idx => (combined idx).2 }
  else
    squeezeArr
      { shape := m.dims
        dtype := dtb
        re := baseRe
        im := fun _ => 0 }

/-- The body of `MatlabSession.get` after a non-null handle was obtained
(lines 187-272): dispatch on `mxIsNumeric` / class name `char` / class name
`logical`; the three supported paths destroy the handle after producing the
value, while the unsupported-class branch raises `NotImplementedError`
before reaching the `mxDestroyArray` call. -/
def getArr (m : MxArr) : GetTrace :=
  if mxIsNumeric m then
    match npDtypeOfClassName (mxGetClassName m) with
    | some dtb => { result := .ok (.array (decodeNumeric m dtb)), destroyCalls := 1 }
    | none => { result := .error (.numpyDtypeError (mxGetClassName m)), destroyCalls := 0 }
  else if mxGetClassName m = "char" then
    { result := .ok (.str m.charData), destroyCalls := 1 }
  else if mxGetClassName m = "logical" then
    { result :=
        .ok (.array (squeezeArr
          { shape := m.dims
            dtype := .bool_
            re := fun idx => (m.realBuf[colMajorPos m.dims idx]?).getD 0
            im := fun _ => 0 }))
      destroyCalls := 1 }
  else
    { result := .error (.notImplemented (mxGetClassName m)), destroyCalls := 0 }

/-- `MatlabSession.get`: `engGetVariable` yields either a null handle (the
variable does not exist in the workspace) or a handle to the value.  The
source applies `mxGetNumberOfDimensions` and the other accessors to the
result with no null check, so the null case dereferences a null pointer. -/
def get : Option MxArr → GetTrace
  | none => { result := .error .nullPointerDeref, destroyCalls := 0 }
  | some m => getArr m

/-- `put` of a host array followed by `get` of the same name: the engine
workspace stores and returns the transferred handle unchanged (the engine's
contract, outside this code base), so the decoder runs on the encoder's
output. -/
def roundTrip (a : NpArray) : GetTrace :=
  match encodeValue (.other a) with
  | .ok pm => get (some pm)
  | .error _ => { result := .error .nullPointerDeref, destroyCalls := 0 }

/-! ## eval and the error-capture template -/

/-- The module-level `wrap_script` template, transcribed verbatim from the
source (a Python raw string, so the `\n` inside the MATLAB `sprintf` format
strings are the two characters backslash-n; apostrophes and braces are
written with hex escapes, same characters). -/
def wrap_script : String :=
  "\nERRORSTR = \x27\x27;\ntry\n    \x7b0\x7d\ncatch err\n    ERRORSTR = sprintf(\x27%s: %s\\n\x27, err.identifier, err.message);\n    for i = 1:length(err.stack)\n        ERRORSTR = sprintf(\x27%sError: in fuction %s in file %s line %i\\n\x27, ERRORSTR, err.stack(i,1).name, err.stack(i,1).file, err.stack(i,1).line);\n    end\nend\nif exist(\x27ERRORSTR\x27,\x27var\x27) == 0\n    ERRORSTR=\x27\x27;\nend\n"

/-- The template text before the replacement field. -/
def wrapScriptPre : String := "\nERRORSTR = \x27\x27;\ntry\n    "

/-- The template text after the replacement field. -/
def wrapScriptSuf : String :=
  "\ncatch err\n    ERRORSTR = sprintf(\x27%s: %s\\n\x27, err.identifier, err.message);\n    for i = 1:length(err.stack)\n        ERRORSTR = sprintf(\x27%sError: in fuction %s in file %s line %i\\n\x27, ERRORSTR, err.stack(i,1).name, err.stack(i,1).file, err.stack(i,1).line);\n    end\nend\nif exist(\x27ERRORSTR\x27,\x27var\x27) == 0\n    ERRORSTR=\x27\x27;\nend\n"

/-- Python `str.format` with one positional argument, at the character level:
the scanner walks the TEMPLATE only; doubled braces are literal braces, the
field `{0}` is replaced by the argument inserted verbatim (the argument is
never scanned), and any other brace construct in the template is an error
(`none`, modelling the `ValueError`/`KeyError`/`IndexError` the real parser
would raise there; `wrap_script` contains only literal text and one `{0}`
field, so those corners are never reached for it). -/
def formatScan (arg : List Char) : List Char → Option (List Char)
  | [] => some []
  | '\x7b' :: '\x7b' :: rest => (formatScan arg rest).map (fun t => '\x7b' :: t)
  | '\x7b' :: '0' :: '\x7d' :: rest => (formatScan arg rest).map (fun t => arg ++ t)
  | '\x7b' :: _ => none
  | '\x7d' :: '\x7d' :: rest => (formatScan arg rest).map (fun t => '\x7d' :: t)
  | '\x7d' :: _ => none
  | ch :: rest => (formatScan arg rest).map (fun t => ch :: t)

/-- `template.format(arg)` for one positional argument. -/
def pyFormat (template arg : String) : Option String :=
  (formatScan arg.data template.data).map (fun l => String.mk l)

/-- The observable effects of one `eval` call.  `errorStrRead` below is the
text of the `ERRORSTR` workspace variable read back through
`engGetVariable` + `mxArrayToString` after execution. -/
structure EvalTrace where
  sentToEngine : Option String
  handlesObtained : Nat
  destroyCalls : Nat
  result : Except String Unit

/-- `MatlabSession.eval`: instantiate the template with the expression
(`wrap_script.format(expression)`), send the wrapped text with
`engEvalString`, read the `ERRORSTR` variable back (obtaining one engine
handle, which the source never destroys), and raise
`RuntimeError("Error from MATLAB\n" + error_string)` iff the text is
non-empty. -/
def eval (expression : String) (errorStrRead : String) : EvalTrace :=
  match pyFormat wrap_script expression with
  | none =>
    { sentToEngine := none, handlesObtained := 0, destroyCalls := 0
      result := .error "str.format error" }
  | some wrapped =>
    { sentToEngine := some wrapped
      handlesObtained := 1
      destroyCalls := 0
      result :=
        if errorStrRead = "" then .ok ()
        else .error ("Error from MATLAB\n" ++ errorStrRead) }

/-! ## Session construction -/

/-- `MatlabSession.__init__` calls `engOpen` through ctypes WITHOUT setting a
`restype`, so the call returns a Python `int` (the default `c_int`
conversion); a null engine pointer comes back as the integer 0, never as
Python `None`.  `x is None` on an `int` is always `False`. -/
def pyIntIsNone (_x : Int) : Bool := false

/-- The command line `__init__` builds: `"{} {}".format(executable, options)`. -/
def engOpenCommandLine (executable options : String) : String :=
  executable ++ " " ++ options

/-- The null-handle check of `__init__` (lines 109-112): raise
`RuntimeError` mentioning the command iff `self._ep is None`, where
`self._ep` is the integer `engOpen` returned. -/
def initSession (engOpenRet : Int) (command : String) : Except String Int :=
  if pyIntIsNone engOpenRet then
    .error ("Could not start matlab using command:\n\t" ++ command)
  else .ok engOpenRet

/-! ## Output buffer -/

/-- What `__init__` does with `buffer_size` (lines 116-124): for a non-zero
size, create a string buffer of that capacity, store it in
`self._output_buffer`, and register it with
`engOutputBuffer(ep, buf, buffer_size - 1)` (the limit argument is the
number of bytes the engine may write); for size 0, store `None` and make no
`engOutputBuffer` call.  The stored buffer is modelled by its text. -/
structure OutputBufferSetup where
  outputBufferField : Option String
  engOutputBufferCalls : List Nat
deriving DecidableEq

/-- The buffer setup branch of `__init__`. -/
def setupOutputBuffer (bufferSize : Nat) : OutputBufferSetup :=
  if bufferSize ≠ 0 then
    { outputBufferField := some "", engOutputBufferCalls := [bufferSize - 1] }
  else
    { outputBufferField := none, engOutputBufferCalls := [] }

/-- Reading `None.value` raises `AttributeError` in Python. -/
inductive PyAttrError
  | attributeError
deriving DecidableEq

/-- The `output_buffer` property: `return self._output_buffer.value`.  When
the field is `None` (buffer size 0 at construction) the attribute access
raises; otherwise it returns the buffer text. -/
def output_buffer : Option String → Except PyAttrError String
  | none => .error .attributeError
  | some s => .ok s

/-! ## Concrete values used to exercise the model -/

/-- A 2-element numpy object array (dtype kind `O`), as `np.array` builds for
a list of arbitrary Python objects. -/
def objectArrayExample : NpArray :=
  { shape := [2], dtype := .object_, re := fun _ => 0, im := fun _ => 0 }

/-- A 1x1 MATLAB cell array handle (class outside the decoder's supported
set). -/
def cellArrayExample : MxArr :=
  { dims := [1, 1], classID := .mxCELL, isComplex := false
    realBuf := [0], imagBuf := none, charData := "" }

/-- An int32 row vector of shape (1,5) with distinct element values. -/
def int32RowExample : NpArray :=
  { shape := [1, 5], dtype := .int32
    re := fun idx => 10 * (idx.getD 1 0 : Int), im := fun _ => 0 }

/-- A complex128 scalar with nonzero real and imaginary parts. -/
def complexScalarExample : NpArray :=
  { shape := [], dtype := .complex128, re := fun _ => 7, im := fun _ => -3 }

/-- A complex handle of an integer class (int16), as the engine produces for
`int16` data with an imaginary part. -/
def complexIntHandleExample : MxArr :=
  { dims := [1, 2], classID := .mxINT16, isComplex := true
    realBuf := [3, 4], imagBuf := some [5, 6], charData := "" }

/-! ## Lemmas: column-major enumeration and indexing -/

theorem getElem?_flatMap_uniform {α β : Type} (g : α → List β) (d : Nat)
    (hg : ∀ a, (g a).length = d) :
    ∀ (L : List α) (p i : Nat), i < d →
      (L.flatMap g)[d * p + i]? = (L[p]?.bind fun a => (g a)[i]?)
  | [], p, i, _ => by simp
  | a :: L, 0, i, hi => by
    simp only [List.flatMap_cons, Nat.mul_zero, Nat.zero_add]
    rw [List.getElem?_append_left (by rw [hg a]; exact hi)]
    simp
  | a :: L, p + 1, i, hi => by
    simp only [List.flatMap_cons]
    rw [List.getElem?_append_right (by rw [hg a]; nlinarith)]
    have harith : d * (p + 1) + i - (g a).length = d * p + i := by
      rw [hg a]; ring_nf; omega
    rw [harith, getElem?_flatMap_uniform g d hg L p i hi]
    simp

theorem validIdx_cons {d i : Nat} {ds is : List Nat}
    (h : validIdx (d :: ds) (i :: is) = true) :
    i < d ∧ validIdx ds is = true := by
  simpa [validIdx, Bool.and_eq_true] using h

theorem colMajorEnum_getElem :
    ∀ (s idx : List Nat), validIdx s idx = true →
      (colMajorEnum s)[colMajorPos s idx]? = some idx
  | [], [], _ => by simp [colMajorEnum, colMajorPos]
  | [], _ :: _, h => by simp [validIdx] at h
  | _ :: _, [], h => by simp [validIdx] at h
  | d :: ds, i :: is, h => by
    obtain ⟨hid, hrec⟩ := validIdx_cons h
    show ((colMajorEnum ds).flatMap
      (fun rest => (List.range d).map (fun i => i :: rest)))[i + d * colMajorPos ds is]? = _
    have hcomm : i + d * colMajorPos ds is = d * colMajorPos ds is + i := by ring
    rw [hcomm,
      getElem?_flatMap_uniform _ d (fun rest => by simp) _ _ _ hid,
      colMajorEnum_getElem ds is hrec]
    simp [List.getElem?_map, List.getElem?_range hid]

theorem serializeF_getElem (s idx : List Nat) (f : List Nat → Int)
    (h : validIdx s idx = true) :
    (serializeF s f)[colMajorPos s idx]? = some (f idx) := by
  simp [serializeF, List.getElem?_map, colMajorEnum_getElem s idx h]

/-! ## Lemmas: squeeze -/

theorem squeezeShape_cons (d : Nat) (ds : List Nat) :
    squeezeShape (d :: ds) = if d = 1 then squeezeShape ds else d :: squeezeShape ds := by
  by_cases h : d = 1 <;> simp [squeezeShape, List.filter_cons, h]

theorem expandIdx_squeezeIdx :
    ∀ (s idx : List Nat), validIdx s idx = true →
      expandIdx s (squeezeIdx s idx) = idx
  | [], [], _ => rfl
  | [], _ :: _, h => by simp [validIdx] at h
  | _ :: _, [], h => by simp [validIdx] at h
  | d :: ds, i :: is, h => by
    obtain ⟨hid, hrec⟩ := validIdx_cons h
    by_cases hd : d = 1
    · have hi0 : i = 0 := by omega
      subst hd; subst hi0
      simp [squeezeIdx, expandIdx, expandIdx_squeezeIdx ds is hrec]
    · simp [squeezeIdx, expandIdx, hd, expandIdx_squeezeIdx ds is hrec]

theorem validIdx_squeezeIdx :
    ∀ (s idx : List Nat), validIdx s idx = true →
      validIdx (squeezeShape s) (squeezeIdx s idx) = true
  | [], [], _ => rfl
  | [], _ :: _, h => by simp [validIdx] at h
  | _ :: _, [], h => by simp [validIdx] at h
  | d :: ds, i :: is, h => by
    obtain ⟨hid, hrec⟩ := validIdx_cons h
    rw [squeezeShape_cons]
    by_cases hd : d = 1
    · simp [hd, squeezeIdx, validIdx_squeezeIdx ds is hrec]
    · simp [hd, squeezeIdx, validIdx, hid, validIdx_squeezeIdx ds is hrec]

theorem squeezeShape_replicate_one (k : Nat) (s : List Nat) :
    squeezeShape (List.replicate k 1 ++ s) = squeezeShape s := by
  induction k with
  | zero => rfl
  | succ n ih => simp [List.replicate_succ, squeezeShape_cons, ih]

theorem squeezeShape_ndmin2 (s : List Nat) :
    squeezeShape (ndmin2Shape s) = squeezeShape s :=
  squeezeShape_replicate_one _ s

theorem validIdx_pad (k : Nat) (s idx : List Nat) (h : validIdx s idx = true) :
    validIdx (List.replicate k 1 ++ s) (List.replicate k 0 ++ idx) = true := by
  induction k with
  | zero => simpa
  | succ n ih => simpa [List.replicate_succ, validIdx] using ih

theorem squeezeIdx_pad (k : Nat) (s idx : List Nat) :
    squeezeIdx (List.replicate k 1 ++ s) (List.replicate k 0 ++ idx) = squeezeIdx s idx := by
  induction k with
  | zero => rfl
  | succ n ih => simpa [List.replicate_succ, squeezeIdx] using ih

theorem drop_replicate_append {α : Type} (k : Nat) (x : α) (l : List α) :
    (List.replicate k x ++ l).drop k = l := by
  have h := List.drop_left (List.replicate k x) l
  rwa [List.length_replicate] at h

/-! ## Lemmas: complex recombination -/

theorem cAdd_cMul_imagUnit (r i : Int) :
    cAdd (r, 0) (cMul (i, 0) imagUnit) = (r, i) := by
  simp [cAdd, cMul, imagUnit]

/-! ## Lemmas: type mapping round trips -/

theorem numeric_dtype_facts :
    ∀ d : NpDtype, d.kind ∈ [NpKind.i, NpKind.u, NpKind.f, NpKind.c] →
      ∃ cls dtb, np_to_mat d = some cls ∧ isNumericClass cls = true ∧
        npDtypeOfClassName (classNameOf cls) = some dtb := by
  intro d hd
  cases d <;>
    first
      | exact absurd hd (by decide)
      | exact ⟨_, _, rfl, rfl, rfl⟩

theorem supported_of_numeric_kind {k : NpKind}
    (h : k ∈ [NpKind.i, NpKind.u, NpKind.f, NpKind.c]) : k ∈ supportedKinds := by
  simp only [List.mem_cons, List.not_mem_nil, or_false] at h
  rcases h with h | h | h | h <;> simp [supportedKinds, h]

/-! ## Lemmas: what the encoder builds -/

theorem encode_ok (a : NpArray) (cls : MxClassID)
    (hsup : a.dtype.kind ∈ supportedKinds)
    (hmat : np_to_mat a.dtype = some cls) :
    encodeValue (.other a) =
      .ok { dims := ndmin2Shape a.shape
            classID := cls
            isComplex := decide (a.dtype.kind = NpKind.c)
            realBuf := serializeF (ndmin2Shape a.shape) (coerceNdmin2 a).re
            imagBuf :=
              if a.dtype.kind = NpKind.c then
                some (serializeF (ndmin2Shape a.shape) (coerceNdmin2 a).im)
              else none
            charData := "" } := by
  have hsup2 : (coerceNdmin2 a).dtype.kind ∈ supportedKinds := hsup
  have hmat2 : np_to_mat (coerceNdmin2 a).dtype = some cls := hmat
  simp only [encodeValue, if_pos hsup2, hmat2]
  by_cases hc : a.dtype.kind = NpKind.c
  · have hc2 : (coerceNdmin2 a).dtype.kind = NpKind.c := hc
    simp [mxCreateNumericArray, hc, hc2, coerceNdmin2, ndmin2Shape]
  · have hc2 : ¬ (coerceNdmin2 a).dtype.kind = NpKind.c := hc
    simp [mxCreateNumericArray, hc, hc2, coerceNdmin2, ndmin2Shape]

/-! ## Lemmas: what the numeric decoder recovers -/

theorem decodeNumeric_encoded (pm : MxArr) (s2 : List Nat)
    (fre fim : List Nat → Int) (dtb : NpDtype)
    (hdims : pm.dims = s2)
    (hre : pm.realBuf = serializeF s2 fre)
    (him : pm.isComplex = true → pm.imagBuf = some (serializeF s2 fim)) :
    (decodeNumeric pm dtb).shape = squeezeShape s2 ∧
    ∀ idx, validIdx s2 idx = true →
      (decodeNumeric pm dtb).re (squeezeIdx s2 idx) = fre idx ∧
      (decodeNumeric pm dtb).im (squeezeIdx s2 idx) = (if pm.isComplex then fim idx else 0) := by
  cases hflag : pm.isComplex with
  | true =>
    have himv := him hflag
    constructor
    · simp [decodeNumeric, hflag, squeezeArr, hdims]
    · intro idx hidx
      have hexp : expandIdx s2 (squeezeIdx s2 idx) = idx := expandIdx_squeezeIdx s2 idx hidx
      simp only [decodeNumeric, hflag, if_true, squeezeArr, hdims, hre, himv, hexp,
        cAdd_cMul_imagUnit, Option.getD_some,
        serializeF_getElem s2 idx fre hidx, serializeF_getElem s2 idx fim hidx]
      exact ⟨trivial, trivial⟩
  | false =>
    constructor
    · simp [decodeNumeric, hflag, squeezeArr, hdims]
    · intro idx hidx
      have hexp : expandIdx s2 (squeezeIdx s2 idx) = idx := expandIdx_squeezeIdx s2 idx hidx
      simp only [decodeNumeric, hflag, Bool.false_eq_true, if_false, squeezeArr, hdims, hre,
        hexp, serializeF_getElem s2 idx fre hidx, Option.getD_some]
      exact ⟨trivial, trivial⟩

/-! ## Lemmas: template instantiation -/

theorem formatScan_cons_other (arg : List Char) (ch : Char) (l : List Char)
    (h1 : ch ≠ '\x7b') (h2 : ch ≠ '\x7d') :
    formatScan arg (ch :: l) = (formatScan arg l).map (fun t => ch :: t) := by
  simp [formatScan, h1, h2]

theorem formatScan_no_brace (arg : List Char) :
    ∀ (p rest : List Char), (∀ ch ∈ p, ch ≠ '\x7b' ∧ ch ≠ '\x7d') →
      formatScan arg (p ++ rest) = (formatScan arg rest).map (fun t => p ++ t)
  | [], rest, _ => by simp
  | ch :: p, rest, h => by
    obtain ⟨⟨h1, h2⟩, hp⟩ : (ch ≠ '\x7b' ∧ ch ≠ '\x7d') ∧
        ∀ c ∈ p, c ≠ '\x7b' ∧ c ≠ '\x7d' := by
      constructor
      · exact h ch (List.mem_cons_self ch p)
      · intro c hc
        exact h c (List.mem_cons_of_mem ch hc)
    show formatScan arg (ch :: (p ++ rest)) = _
    rw [formatScan_cons_other arg ch (p ++ rest) h1 h2,
      formatScan_no_brace arg p rest hp, Option.map_map]
    rfl

theorem formatScan_field (arg rest : List Char) :
    formatScan arg ('\x7b' :: '0' :: '\x7d' :: rest) =
      (formatScan arg rest).map (fun t => arg ++ t) := rfl

set_option maxRecDepth 8000 in
theorem wrap_script_decomp :
    wrap_script.data =
      wrapScriptPre.data ++ ('\x7b' :: '0' :: '\x7d' :: wrapScriptSuf.data) := by
  decide

set_option maxRecDepth 8000 in
theorem wrapScriptPre_no_brace :
    ∀ ch ∈ wrapScriptPre.data, ch ≠ '\x7b' ∧ ch ≠ '\x7d' := by
  decide

set_option maxRecDepth 8000 in
theorem wrapScriptSuf_no_brace :
    ∀ ch ∈ wrapScriptSuf.data, ch ≠ '\x7b' ∧ ch ≠ '\x7d' := by
  decide

set_option maxRecDepth 8000 in
/-- `wrap_script.format(expression)` always succeeds and embeds the
expression text verbatim between the two literal halves of the template:
Python `str.format` scans only the template for replacement fields, never
the argument. -/
theorem pyFormat_wrap_script (expression : String) :
    pyFormat wrap_script expression =
      some (wrapScriptPre ++ expression ++ wrapScriptSuf) := by
  have hsuf : formatScan expression.data wrapScriptSuf.data = some wrapScriptSuf.data := by
    have h := formatScan_no_brace expression.data wrapScriptSuf.data [] wrapScriptSuf_no_brace
    simpa [formatScan] using h
  have h1 : formatScan expression.data wrap_script.data =
      some (wrapScriptPre.data ++ (expression.data ++ wrapScriptSuf.data)) := by
    rw [wrap_script_decomp,
      formatScan_no_brace expression.data wrapScriptPre.data _ wrapScriptPre_no_brace,
      formatScan_field, hsuf]
    rfl
  have h2 : String.mk (wrapScriptPre.data ++ (expression.data ++ wrapScriptSuf.data)) =
      wrapScriptPre ++ expression ++ wrapScriptSuf := by
    apply String.ext
    simp [String.data_append]
  show (formatScan expression.data wrap_script.data).map (fun l => String.mk l) = _
  rw [h1]
  exact congrArg some h2

/-! ## Lemmas: lengths and remaining dispatch facts -/

theorem colMajorEnum_length : ∀ s : List Nat, (colMajorEnum s).length = s.prod
  | [] => rfl
  | d :: ds => by
    have ih := colMajorEnum_length ds
    simp only [colMajorEnum, List.length_flatMap]
    have hconst : (List.length ∘ fun rest => List.map (fun i => i :: rest) (List.range d)) =
        fun _ : List Nat => d := by
      funext rest
      simp
    rw [hconst]
    simp [List.map_const', List.sum_replicate, ih, smul_eq_mul, Nat.mul_comm]

theorem serializeF_length (s : List Nat) (f : List Nat -> Int) :
    (serializeF s f).length = s.prod := by
  simp [serializeF, colMajorEnum_length]

theorem supported_np_to_mat :
    ∀ d : NpDtype, d.kind ∈ supportedKinds → ∃ cls, np_to_mat d = some cls := by
  intro d hd
  cases d <;>
    first
      | exact absurd hd (by decide)
      | exact ⟨_, rfl⟩

theorem numericClass_parses :
    ∀ cls : MxClassID, isNumericClass cls = true →
      ∃ dtb, npDtypeOfClassName (classNameOf cls) = some dtb := by
  intro cls h
  cases cls <;>
    first
      | exact absurd h (by decide)
      | exact ⟨_, rfl⟩

theorem isFloatComplex_promote (d : NpDtype) :
    isFloatComplex (promoteComplex d) = true := by
  cases d <;> rfl

/-! ## Claim theorems -/

/-- C1.  For every host array of a supported numeric dtype (kind signed int,
unsigned int, float or complex; any shape, unit dimensions included),
putting it into the engine workspace and getting it back succeeds and
returns an array whose shape is the squeeze of the original shape (so a
shape (1,5) input comes back with shape (5,)) and whose elements agree with
the original at every valid index (the real and the imaginary part).
The hypothesis `him` records that numpy reports a zero imaginary part for
arrays of non-complex dtype. -/
theorem c1_roundtrip_elementwise (x : NpArray)
    (hk : x.dtype.kind ∈ [NpKind.i, NpKind.u, NpKind.f, NpKind.c])
    (him : x.dtype.kind ≠ NpKind.c → ∀ idx, x.im idx = 0) :
    ∃ a : NpArray,
      (roundTrip x).result = Except.ok (HostOut.array a) ∧
      a.shape = squeezeShape x.shape ∧
      ∀ idx, validIdx x.shape idx = true →
        a.re (squeezeIdx x.shape idx) = x.re idx ∧
        a.im (squeezeIdx x.shape idx) = x.im idx := by
  obtain ⟨cls, dtb, hmat, hnum, hname⟩ := numeric_dtype_facts x.dtype hk
  have hsup : x.dtype.kind ∈ supportedKinds := supported_of_numeric_kind hk
  have henc := encode_ok x cls hsup hmat
  set pm : MxArr :=
    { dims := ndmin2Shape x.shape
      classID := cls
      isComplex := decide (x.dtype.kind = NpKind.c)
      realBuf := serializeF (ndmin2Shape x.shape) (coerceNdmin2 x).re
      imagBuf :=
        if x.dtype.kind = NpKind.c then
          some (serializeF (ndmin2Shape x.shape) (coerceNdmin2 x).im)
        else none
      charData := "" } with hpm
  have hrt : roundTrip x = getArr pm := by
    simp [roundTrip, henc, get]
  have hget : getArr pm =
      { result := .ok (.array (decodeNumeric pm dtb)), destroyCalls := 1 } := by
    have h1 : mxIsNumeric pm = true := by
      simp [mxIsNumeric, hpm, hnum]
    have h2 : npDtypeOfClassName (mxGetClassName pm) = some dtb := by
      simpa [mxGetClassName, hpm] using hname
    simp [getArr, h1, h2]
  have hdec := decodeNumeric_encoded pm (ndmin2Shape x.shape)
    (coerceNdmin2 x).re (coerceNdmin2 x).im dtb rfl rfl
    (by
      intro h
      simp only [hpm] at h ⊢
      simp only [decide_eq_true_eq] at h
      simp [h])
  refine ⟨decodeNumeric pm dtb, ?_, ?_, ?_⟩
  · rw [hrt, hget]
  · rw [hdec.1, squeezeShape_ndmin2]
  · intro idx hidx
    have hpad : validIdx (ndmin2Shape x.shape)
        (List.replicate (2 - x.shape.length) 0 ++ idx) = true :=
      validIdx_pad (2 - x.shape.length) x.shape idx hidx
    have hsq : squeezeIdx (ndmin2Shape x.shape)
        (List.replicate (2 - x.shape.length) 0 ++ idx) = squeezeIdx x.shape idx :=
      squeezeIdx_pad (2 - x.shape.length) x.shape idx
    obtain ⟨hr, hi⟩ := hdec.2 (List.replicate (2 - x.shape.length) 0 ++ idx) hpad
    rw [hsq] at hr hi
    have hdropre : (coerceNdmin2 x).re (List.replicate (2 - x.shape.length) 0 ++ idx)
        = x.re idx := by
      simp [coerceNdmin2, drop_replicate_append]
    have hdropim : (coerceNdmin2 x).im (List.replicate (2 - x.shape.length) 0 ++ idx)
        = x.im idx := by
      simp [coerceNdmin2, drop_replicate_append]
    refine ⟨by rw [hr, hdropre], ?_⟩
    rw [hi]
    by_cases hc : x.dtype.kind = NpKind.c
    · have : pm.isComplex = true := by simp [hpm, hc]
      rw [this, if_pos rfl, hdropim]
    · have : pm.isComplex = false := by simp [hpm, hc]
      rw [this]
      simp [him hc idx]

/-- C1 witness: the shape (1,5) int32 row vector of the claim round-trips to
shape (5,) with all elements preserved. -/
theorem c1_roundtrip_elementwise_witness :
    (∃ a : NpArray,
      (roundTrip int32RowExample).result = Except.ok (HostOut.array a) ∧
      a.shape = squeezeShape int32RowExample.shape ∧
      ∀ idx, validIdx int32RowExample.shape idx = true →
        a.re (squeezeIdx int32RowExample.shape idx) = int32RowExample.re idx ∧
        a.im (squeezeIdx int32RowExample.shape idx) = int32RowExample.im idx) ∧
    squeezeShape int32RowExample.shape = [5] :=
  ⟨c1_roundtrip_elementwise int32RowExample (by decide) (fun _ _ => rfl), by decide⟩

set_option maxRecDepth 8000 in
/-- C2.  The claim says every engine handle obtained during `get` or `eval`
is destroyed exactly once on every exit path.  The code violates it: the
unsupported-class branch of `get` raises before the `mxDestroyArray` call
(the handle leaks, destroy count 0), and `eval` obtains the `ERRORSTR`
handle from `engGetVariable` but never destroys it. -/
theorem c2_handle_leak_on_failure_paths :
    (getArr cellArrayExample).result = Except.error (GetError.notImplemented "cell") ∧
    (getArr cellArrayExample).destroyCalls = 0 ∧
    (eval "x = 1" "").handlesObtained = 1 ∧
    (eval "x = 1" "").destroyCalls = 0 := by
  refine ⟨rfl, rfl, ?_, ?_⟩ <;> simp [eval, pyFormat_wrap_script]

set_option maxRecDepth 8000 in
/-- C3.  `eval` raises iff the `ERRORSTR` text read back after execution is
non-empty; the raised message is the fixed prefix followed by that text
verbatim (so it contains the engine's error identifier and message), and an
empty text means `eval` returns with no value and raises nothing. -/
theorem c3_eval_raises_iff_errorstr_nonempty (expression errStr : String) :
    ((eval expression errStr).result = Except.ok () ↔ errStr = "") ∧
    (∀ msg, (eval expression errStr).result = Except.error msg →
      msg = "Error from MATLAB\n" ++ errStr ∧ ∃ p q, msg = p ++ errStr ++ q) := by
  have hfmt := pyFormat_wrap_script expression
  constructor
  · constructor
    · intro h
      by_contra he
      simp [eval, hfmt, he] at h
    · intro he
      simp [eval, hfmt, he]
  · intro msg hmsg
    by_cases he : errStr = ""
    · simp [eval, hfmt, he] at hmsg
    · simp [eval, hfmt, he] at hmsg
      refine ⟨hmsg.symm, "Error from MATLAB\n", "", ?_⟩
      rw [← hmsg]
      simp

set_option maxRecDepth 8000 in
/-- C3 witness: with a non-empty error text the raised message carries the
text verbatim. -/
theorem c3_eval_raises_witness :
    "Error from MATLAB\nMyPkg:boom: fail" = "Error from MATLAB\n" ++ "MyPkg:boom: fail" ∧
    ∃ p q, "Error from MATLAB\nMyPkg:boom: fail" = p ++ "MyPkg:boom: fail" ++ q :=
  (c3_eval_raises_iff_errorstr_nonempty "x = 1" "MyPkg:boom: fail").2
    "Error from MATLAB\nMyPkg:boom: fail"
    (by simp [eval, pyFormat_wrap_script])

/-- C4.  The claim says `get` on a name the engine has no variable for
(null handle from `engGetVariable`) fails with a VariableNotFound-style
error after an explicit null check.  The code has no null check: it passes
the null handle straight into `mxGetNumberOfDimensions` and the other
accessors, dereferencing a null pointer, and never produces a
variable-not-found error. -/
theorem c4_missing_variable_null_deref :
    get none = { result := Except.error GetError.nullPointerDeref, destroyCalls := 0 } := rfl

/-- C5.  `put` of a dict, or of an array whose element kind is outside
{signed int, unsigned int, float, complex, bool}, raises an
unsupported-type error (`NotImplementedError`) and performs no
`engPutVariable` transfer, leaving the workspace unchanged. -/
theorem c5_unsupported_put_rejected (name : String) (a : NpArray)
    (ha : a.dtype.kind ∉ supportedKinds) :
    (put name HostValue.dict).result = Except.error PutError.dictsNotSupported ∧
    (put name HostValue.dict).putVarCalls = [] ∧
    (put name (HostValue.other a)).result = Except.error (PutError.typeNotSupported a.dtype) ∧
    (put name (HostValue.other a)).putVarCalls = [] := by
  have ha2 : ¬ (coerceNdmin2 a).dtype.kind ∈ supportedKinds := ha
  have henc : encodeValue (HostValue.other a) =
      Except.error (PutError.typeNotSupported a.dtype) := by
    simp only [encodeValue]
    rw [if_neg ha2]
    rfl
  refine ⟨rfl, rfl, ?_, ?_⟩ <;> simp [put, henc]

/-- C5 witness: a dict and an object-dtype array are both rejected with no
transfer. -/
theorem c5_unsupported_put_rejected_witness :
    (put "x" HostValue.dict).result = Except.error PutError.dictsNotSupported ∧
    (put "x" HostValue.dict).putVarCalls = [] ∧
    (put "x" (HostValue.other objectArrayExample)).result =
      Except.error (PutError.typeNotSupported objectArrayExample.dtype) ∧
    (put "x" (HostValue.other objectArrayExample)).putVarCalls = [] :=
  c5_unsupported_put_rejected "x" objectArrayExample (by decide)

/-- C6 counterexample.  The claim quantifies over every non-text,
non-mapping value, but a numpy object array (dtype kind `O`) is non-text
and non-mapping and `put` raises `NotImplementedError` for it instead of
allocating a numeric handle: encode produces no handle at all. -/
theorem c6_object_array_not_encoded :
    encodeValue (HostValue.other objectArrayExample) =
      Except.error (PutError.typeNotSupported NpDtype.object_) := rfl

/-- C6 (amended: restricted to values whose coerced element kind is in
{signed int, unsigned int, float, complex, bool}).  Encode coerces the
value to an array of at least 2 dimensions (a scalar becomes 1x1),
allocates a handle whose dimensions match the coerced array and whose
complex flag is set iff the element kind is complex, and copies the real
part (and, iff complex, the imaginary part) into buffers of matching
element count, serialized in column-major order. -/
theorem c6_encode_shape_flag_colmajor (a : NpArray)
    (hsup : a.dtype.kind ∈ supportedKinds) :
    ∃ pm, encodeValue (HostValue.other a) = Except.ok pm ∧
      pm.dims = ndmin2Shape a.shape ∧
      2 ≤ pm.dims.length ∧
      (a.shape = [] → pm.dims = [1, 1]) ∧
      (pm.isComplex = true ↔ a.dtype.kind = NpKind.c) ∧
      pm.realBuf.length = pm.dims.prod ∧
      (∀ idx, validIdx (ndmin2Shape a.shape) idx = true →
        pm.realBuf[colMajorPos pm.dims idx]? = some ((coerceNdmin2 a).re idx)) ∧
      (a.dtype.kind = NpKind.c →
        ∃ ib, pm.imagBuf = some ib ∧ ib.length = pm.dims.prod ∧
          ∀ idx, validIdx (ndmin2Shape a.shape) idx = true →
            ib[colMajorPos pm.dims idx]? = some ((coerceNdmin2 a).im idx)) ∧
      (a.dtype.kind ≠ NpKind.c → pm.imagBuf = none) := by
  obtain ⟨cls, hmat⟩ := supported_np_to_mat a.dtype hsup
  refine ⟨_, encode_ok a cls hsup hmat, rfl, ?_, ?_, ?_, ?_, ?_, ?_, ?_⟩
  · simp only [ndmin2Shape, List.length_append, List.length_replicate]
    omega
  · intro h
    simp [h, ndmin2Shape]
  · simp [decide_eq_true_eq]
  · simp [serializeF_length]
  · intro idx hidx
    exact serializeF_getElem (ndmin2Shape a.shape) idx (coerceNdmin2 a).re hidx
  · intro hc
    refine ⟨serializeF (ndmin2Shape a.shape) (coerceNdmin2 a).im, by simp [hc], ?_, ?_⟩
    · simp [serializeF_length]
    · intro idx hidx
      exact serializeF_getElem (ndmin2Shape a.shape) idx (coerceNdmin2 a).im hidx
  · intro hc
    simp [hc]

/-- C6 witness: a complex scalar is encoded as a 1x1 complex handle with
both parts copied. -/
theorem c6_encode_shape_flag_colmajor_witness :
    ∃ pm, encodeValue (HostValue.other complexScalarExample) = Except.ok pm ∧
      pm.dims = ndmin2Shape complexScalarExample.shape ∧
      2 ≤ pm.dims.length ∧
      (complexScalarExample.shape = [] → pm.dims = [1, 1]) ∧
      (pm.isComplex = true ↔ complexScalarExample.dtype.kind = NpKind.c) ∧
      pm.realBuf.length = pm.dims.prod ∧
      (∀ idx, validIdx (ndmin2Shape complexScalarExample.shape) idx = true →
        pm.realBuf[colMajorPos pm.dims idx]? =
          some ((coerceNdmin2 complexScalarExample).re idx)) ∧
      (complexScalarExample.dtype.kind = NpKind.c →
        ∃ ib, pm.imagBuf = some ib ∧ ib.length = pm.dims.prod ∧
          ∀ idx, validIdx (ndmin2Shape complexScalarExample.shape) idx = true →
            ib[colMajorPos pm.dims idx]? =
              some ((coerceNdmin2 complexScalarExample).im idx)) ∧
      (complexScalarExample.dtype.kind ≠ NpKind.c → pm.imagBuf = none) :=
  c6_encode_shape_flag_colmajor complexScalarExample (by decide)

/-- C7.  The claim says construction fails with an error naming the command
whenever `engOpen` returns a null connection handle.  The code sets no
ctypes `restype` for `engOpen`, so the call returns a Python int and the
`self._ep is None` guard can never fire: construction accepts every return
value, including the null pointer 0. -/
theorem c7_null_connection_not_detected :
    (∀ (engOpenRet : Int) (command : String),
      initSession engOpenRet command = Except.ok engOpenRet) ∧
    initSession 0 (engOpenCommandLine "/usr/local/MATLAB/R2014a/bin/matlab" "-nosplash") =
      Except.ok 0 :=
  ⟨fun _ _ => rfl, rfl⟩

set_option maxRecDepth 8000 in
/-- C8 counterexample.  The claim says every expression containing a brace
makes `eval` raise during template instantiation.  A MATLAB cell literal
contains braces, yet `str.format` parses only the template, so
instantiation succeeds, `eval` raises nothing, and the braces reach the
engine verbatim. -/
theorem c8_cell_literal_no_host_error :
    pyFormat wrap_script "c = \x7b1\x7d" =
      some (wrapScriptPre ++ "c = \x7b1\x7d" ++ wrapScriptSuf) ∧
    (eval "c = \x7b1\x7d" "").result = Except.ok () ∧
    (eval "c = \x7b1\x7d" "").sentToEngine =
      some (wrapScriptPre ++ "c = \x7b1\x7d" ++ wrapScriptSuf) := by
  refine ⟨pyFormat_wrap_script _, ?_, ?_⟩ <;> simp [eval, pyFormat_wrap_script]

set_option maxRecDepth 8000 in
/-- C8 (amended).  For every expression string, braces included, template
instantiation succeeds (Python `str.format` scans only the fixed template,
whose sole replacement field is `{0}`) and the expression text is embedded
in the wrapped script verbatim; `eval` never raises host-side during
instantiation. -/
theorem c8_format_embeds_verbatim (expression errStr : String) :
    pyFormat wrap_script expression = some (wrapScriptPre ++ expression ++ wrapScriptSuf) ∧
    (eval expression errStr).sentToEngine =
      some (wrapScriptPre ++ expression ++ wrapScriptSuf) := by
  refine ⟨pyFormat_wrap_script _, ?_⟩
  simp [eval, pyFormat_wrap_script]

/-- C9.  Decoding any complex numeric handle produces a host array of
floating-point complex dtype — the promotion of the class dtype, complex64
only for single precision, complex128 otherwise, so integer complex
classes are promoted, not preserved — whose elements are exactly
`real + imaginary * 1j` of the two buffers (computed here by exact complex
arithmetic on the pairs). -/
theorem c9_complex_decode_promotes (m : MxArr)
    (hnum : mxIsNumeric m = true) (hc : m.isComplex = true) :
    ∃ dtb a, npDtypeOfClassName (mxGetClassName m) = some dtb ∧
      (getArr m).result = Except.ok (HostOut.array a) ∧
      a.dtype = promoteComplex dtb ∧
      isFloatComplex a.dtype = true ∧
      ∀ idx, validIdx m.dims idx = true →
        (a.re (squeezeIdx m.dims idx), a.im (squeezeIdx m.dims idx)) =
          cAdd ((m.realBuf[colMajorPos m.dims idx]?).getD 0, 0)
            (cMul (((m.imagBuf.getD [])[colMajorPos m.dims idx]?).getD 0, 0) imagUnit) := by
  obtain ⟨dtb, hname⟩ := numericClass_parses m.classID hnum
  have hdt : (decodeNumeric m dtb).dtype = promoteComplex dtb := by
    simp [decodeNumeric, hc, squeezeArr]
  refine ⟨dtb, decodeNumeric m dtb, hname, ?_, hdt, ?_, ?_⟩
  · simp [getArr, hnum, mxGetClassName, hname]
  · rw [hdt]
    exact isFloatComplex_promote dtb
  · intro idx hidx
    have hexp : expandIdx m.dims (squeezeIdx m.dims idx) = idx :=
      expandIdx_squeezeIdx m.dims idx hidx
    simp only [decodeNumeric, hc, if_true, squeezeArr, hexp, cAdd_cMul_imagUnit]

/-- C9 witness: an int16 complex handle decodes to complex128 with the
pairs combined from the two buffers. -/
theorem c9_complex_decode_promotes_witness :
    ∃ dtb a, npDtypeOfClassName (mxGetClassName complexIntHandleExample) = some dtb ∧
      (getArr complexIntHandleExample).result = Except.ok (HostOut.array a) ∧
      a.dtype = promoteComplex dtb ∧
      isFloatComplex a.dtype = true ∧
      ∀ idx, validIdx complexIntHandleExample.dims idx = true →
        (a.re (squeezeIdx complexIntHandleExample.dims idx),
         a.im (squeezeIdx complexIntHandleExample.dims idx)) =
          cAdd ((complexIntHandleExample.realBuf[colMajorPos complexIntHandleExample.dims idx]?).getD 0, 0)
            (cMul (((complexIntHandleExample.imagBuf.getD [])[colMajorPos complexIntHandleExample.dims idx]?).getD 0, 0)
              imagUnit) :=
  c9_complex_decode_promotes complexIntHandleExample (by decide) (by decide)

/-- C10.  With buffer capacity 0 at construction no output buffer is
installed (`_output_buffer` is None), no `engOutputBuffer` registration
happens, and reading the `output_buffer` property raises
(`None.value` is an AttributeError); with a non-zero capacity a buffer is
installed and the engine is configured to write at most capacity - 1
bytes. -/
theorem c10_output_buffer_gating (n : Nat) (hn : n ≠ 0) :
    (setupOutputBuffer 0).outputBufferField = none ∧
    (setupOutputBuffer 0).engOutputBufferCalls = [] ∧
    output_buffer (setupOutputBuffer 0).outputBufferField =
      Except.error PyAttrError.attributeError ∧
    (setupOutputBuffer n).outputBufferField.isSome = true ∧
    (setupOutputBuffer n).engOutputBufferCalls = [n - 1] := by
  refine ⟨rfl, rfl, rfl, ?_, ?_⟩ <;> simp [setupOutputBuffer, hn]

/-- C10 witness: capacity 1024 installs a buffer and registers a 1023-byte
limit, while capacity 0 installs none and the property read raises. -/
theorem c10_output_buffer_gating_witness :
    (setupOutputBuffer 0).outputBufferField = none ∧
    (setupOutputBuffer 0).engOutputBufferCalls = [] ∧
    output_buffer (setupOutputBuffer 0).outputBufferField =
      Except.error PyAttrError.attributeError ∧
    (setupOutputBuffer 1024).outputBufferField.isSome = true ∧
    (setupOutputBuffer 1024).engOutputBufferCalls = [1024 - 1] :=
  c10_output_buffer_gating 1024 (by decide)

end MatlabWrapper